import Mathlib

/-!
Shallow embedding of `src/index.ts` of youtube-caption-extractor.

The source is two exported async functions, `getVideoDetails` and
`getSubtitles`, sharing a duplicated pipeline: regex extraction of
title/description meta tags, extraction of the `"captionTracks":[...]`
JSON array, `JSON.parse`, track selection by `vssId`, and parsing of the
fetched timed-text document into subtitle records.

Strings are modelled as `List Char` internally.  The JavaScript regexes
are modelled operationally with their backtracking semantics spelled
out (leftmost match, ordered alternation, greedy / non-greedy
quantifiers, `.` matching any character except line terminators).
Network fetches are modelled by passing the fetched page text and a
function from caption-track URLs to caption-document text.  `await`ed
exceptions are modelled by `Except String`.
-/

namespace YCE

/-! ## Basic string scanning helpers -/

/-- Model of JavaScript `String.prototype.includes(pat)`. -/
def containsSub (s pat : List Char) : Bool :=
  match s with
  | [] => pat.isEmpty
  | _ :: rest => pat.isPrefixOf s || containsSub rest pat

/-- Model of JavaScript `s.replace(pat, "")` with a *string* pattern:
only the first occurrence of `pat` is removed. -/
def replaceFirstPat (pat : List Char) : List Char → List Char
  | [] => []
  | c :: rest =>
    if pat ≠ [] ∧ pat.isPrefixOf (c :: rest) then (c :: rest).drop pat.length
    else c :: replaceFirstPat pat rest

/-- Model of JavaScript `s.split("</text>")`: split on every
non-overlapping occurrence of the literal separator, keeping empty
pieces. -/
def splitTextClose : List Char → List (List Char)
  | '<' :: '/' :: 't' :: 'e' :: 'x' :: 't' :: '>' :: rest => [] :: splitTextClose rest
  | c :: rest =>
    match splitTextClose rest with
    | [] => [[c]]
    | h :: t => (c :: h) :: t
  | [] => [[]]

/-- Whitespace stripped by JavaScript `String.prototype.trim()`
(ASCII subset; the Unicode space characters never occur here). -/
def jsWhitespace (c : Char) : Bool :=
  c == ' ' || c == '\t' || c == '\n' || c == '\r' || c == '\x0b' || c == '\x0c'

/-- Model of JavaScript `String.prototype.trim()`. -/
def trimChars (l : List Char) : List Char :=
  ((l.dropWhile jsWhitespace).reverse.dropWhile jsWhitespace).reverse

/-! ## The attribute-capture regexes `start="([\d.]+)"` / `dur="([\d.]+)"`

`regex.exec(line)` finds the leftmost position where the whole pattern
matches.  At a given occurrence of the literal prefix, `[\d.]+` is
greedy and consists of digit/dot characters only, so it is forced to be
the maximal digit/dot run, which must be non-empty and followed by a
closing quote; otherwise the engine moves the start position forward by
one character. -/

def isDigitDot (c : Char) : Bool := c.isDigit || c == '.'

/-- One attempted match of `([\d.]+)"` at a fixed start position, after
the literal `pat` has been consumed: the greedy `[\d.]+` is forced to
be the maximal digit/dot run, which must be non-empty and followed by
the closing quote. -/
def captureAt (pat s : List Char) : Option (List Char) :=
  if (s.drop pat.length).takeWhile isDigitDot ≠ [] ∧
      ((s.drop pat.length).drop
        ((s.drop pat.length).takeWhile isDigitDot).length).head? = some '"' then
    some ((s.drop pat.length).takeWhile isDigitDot)
  else none

/-- Model of `/pat([\d.]+)"/.exec(line)` returning capture group 1,
where `pat` is a literal (here `start="` or `dur="`, whose final quote
is folded into `pat`): leftmost start position wins. -/
def findCapture (pat : List Char) : List Char → Option (List Char)
  | [] => none
  | c :: rest =>
    if pat.isPrefixOf (c :: rest) then
      match captureAt pat (c :: rest) with
      | some r => some r
      | none => findCapture pat rest
    else findCapture pat rest

def startPat : List Char := "start=\"".toList

def durPat : List Char := "dur=\"".toList

/-! ## Subtitle text cleanup chain -/

/-- Largest index `i ≥ 1` such that `l.get i = '>'` (used for the greedy
`.+` of `/<text.+>/`). -/
def lastGtIdx (l : List Char) : Option Nat :=
  match l.reverse.findIdx? (fun c => c == '>') with
  | some k => if 1 ≤ l.length - 1 - k then some (l.length - 1 - k) else none
  | none => none

/-- Model of `line.replace(/<text.+>/, "")`: remove the first (leftmost,
then greedy) match of `<text` followed by one or more non-line-terminator
characters and a `>`.  Only the first match is replaced (no `g` flag). -/
def removeTextOpenTag : List Char → List Char
  | [] => []
  | c :: rest =>
    if ['<', 't', 'e', 'x', 't'].isPrefixOf (c :: rest) then
      let after := (c :: rest).drop 5
      let run := after.takeWhile (fun ch => ch ≠ '\n' ∧ ch ≠ '\r')
      match lastGtIdx run with
      | some i => after.drop (i + 1)
      | none => c :: removeTextOpenTag rest
    else c :: removeTextOpenTag rest

/-- Model of `line.replace(/&amp;/gi, "&")`: global, case-insensitive,
left-to-right and non-rescanning. -/
def replaceAmp : List Char → List Char
  | c1 :: c2 :: c3 :: c4 :: c5 :: rest =>
    if c1 = '&' ∧ (c2 = 'a' ∨ c2 = 'A') ∧ (c3 = 'm' ∨ c3 = 'M') ∧
        (c4 = 'p' ∨ c4 = 'P') ∧ c5 = ';' then
      '&' :: replaceAmp rest
    else c1 :: replaceAmp (c2 :: c3 :: c4 :: c5 :: rest)
  | l => l

/-- Model of `line.replace(/<\/?[^>]+(>|$)/g, "")` as a scan.  Since `/`
is itself a non-`>` character, the pattern matches exactly `<`, one or
more non-`>` characters, then `>` or end of input.  A lone `<`
immediately followed by `>` (or standing at the end) does not match and
is kept. -/
def stripTagsAux : Bool → List Char → List Char
  | _, [] => []
  | true, c :: rest => if c = '>' then stripTagsAux false rest else stripTagsAux true rest
  | false, c :: rest =>
    if c = '<' then
      match rest with
      | [] => ['<']
      | c2 :: rest2 =>
        if c2 = '>' then '<' :: '>' :: stripTagsAux false rest2
        else stripTagsAux true rest2
    else c :: stripTagsAux false rest

def stripTagPattern (l : List Char) : List Char := stripTagsAux false l

/-- Hex digit test for numeric character references and `\u` escapes. -/
def isHexDigit (c : Char) : Bool :=
  c.isDigit || ('a' ≤ c ∧ c ≤ 'f') || ('A' ≤ c ∧ c ≤ 'F')

def hexDigitVal (c : Char) : Nat :=
  if c.isDigit then c.toNat - 48
  else if 'a' ≤ c ∧ c ≤ 'f' then c.toNat - 87
  else c.toNat - 55

def hexVal (l : List Char) : Nat := l.foldl (fun acc c => 16 * acc + hexDigitVal c) 0

def decVal (l : List Char) : Nat := l.foldl (fun acc c => 10 * acc + (c.toNat - 48)) 0

/-- Model of the `he` library's `decode` restricted to the entity forms
exercised by this program: the semicolon-terminated named entities
`amp`, `lt`, `gt`, `quot`, `apos` and numeric character references
(decimal and hex).  An unrecognized sequence after `&` is left as-is.
Returns the decoded character and the unconsumed remainder. -/
def namedEntity (l : List Char) : Option (Char × List Char) :=
  if ['a', 'm', 'p', ';'].isPrefixOf l then some ('&', l.drop 4)
  else if ['l', 't', ';'].isPrefixOf l then some ('<', l.drop 3)
  else if ['g', 't', ';'].isPrefixOf l then some ('>', l.drop 3)
  else if ['q', 'u', 'o', 't', ';'].isPrefixOf l then some ('"', l.drop 5)
  else if ['a', 'p', 'o', 's', ';'].isPrefixOf l then some (Char.ofNat 39, l.drop 5)
  else
    match l with
    | '#' :: 'x' :: rest =>
      let ds := rest.takeWhile isHexDigit
      if ds ≠ [] ∧ (rest.drop ds.length).head? = some ';' then
        some (Char.ofNat (hexVal ds), rest.drop (ds.length + 1))
      else none
    | '#' :: rest =>
      let ds := rest.takeWhile Char.isDigit
      if ds ≠ [] ∧ (rest.drop ds.length).head? = some ';' then
        some (Char.ofNat (decVal ds), rest.drop (ds.length + 1))
      else none
    | _ => none

/-- Model of `he.decode` (see `namedEntity`), fuelled: every step
consumes at least one character, so fuel equal to the input length is
exact and the base case is never hit on the initial call. -/
def heDecodeAux : Nat → List Char → List Char
  | 0, l => l
  | _, [] => []
  | Nat.succ fuel, c :: rest =>
    if c = '&' then
      match namedEntity rest with
      | some p => p.1 :: heDecodeAux fuel p.2
      | none => '&' :: heDecodeAux fuel rest
    else c :: heDecodeAux fuel rest

def heDecode (l : List Char) : List Char := heDecodeAux l.length l

/-- Model of the `striptags` library on the inputs arising here: text
outside `<...>` regions is kept; from an unmatched `<` to the end
everything is dropped. -/
def striptagsAux : Bool → List Char → List Char
  | _, [] => []
  | false, c :: rest =>
    if c = '<' then striptagsAux true rest else c :: striptagsAux false rest
  | true, c :: rest =>
    if c = '>' then striptagsAux false rest else striptagsAux true rest

def striptagsModel (l : List Char) : List Char := striptagsAux false l

/-! ## Caption document parsing (the `.reduce` over split fragments) -/

structure Subtitle where
  start : String
  dur : String
  text : String
deriving Repr, DecidableEq

/-- Text cleanup applied to one fragment, in source order:
`<text.+>` removal, `&amp;` un-escaping, tag stripping, `he.decode`,
`striptags`. -/
def cleanLineText (line : List Char) : List Char :=
  striptagsModel (heDecode (stripTagPattern (replaceAmp (removeTextOpenTag line))))

/-- One step of the source's `.reduce`: extract `start` and `dur`; if
either is missing the fragment is dropped, else a `Subtitle` is built
from the captures and the cleaned text. -/
def parseLine (line : List Char) : Option Subtitle :=
  match findCapture startPat line, findCapture durPat line with
  | some s, some d => some ⟨String.mk s, String.mk d, String.mk (cleanLineText line)⟩
  | _, _ => none

def prologPat : List Char :=
  "<?xml version=\"1.0\" encoding=\"utf-8\" ?><transcript>".toList

def transcriptClosePat : List Char := "</transcript>".toList

/-- The fragment list: prolog and `</transcript>` removal (first
occurrence each), split on `</text>`, drop empty / whitespace-only
fragments. -/
def transcriptFragments (transcript : String) : List (List Char) :=
  (splitTextClose
      (replaceFirstPat transcriptClosePat
        (replaceFirstPat prologPat transcript.toList))).filter
    (fun l => !l.isEmpty && !(trimChars l).isEmpty)

/-- The whole caption-document parser (the `lines` computation of the
source, shared verbatim between both exported functions). -/
def parseTranscript (transcript : String) : List Subtitle :=
  (transcriptFragments transcript).foldl
    (fun acc line =>
      match parseLine line with
      | some s => acc ++ [s]
      | none => acc) []

/-! ## Page metadata extraction

Model of `data.match(/<meta name="NAME" content="([^"]*|[^"]*[^&]quot;[^"]*)">/)`,
returning capture group 1 of the leftmost match.  The regex engine
tries each start position left to right; the literal head restricts
viable start positions to occurrences of `<meta name="NAME" content="`.
At such a position the alternation is ordered: the first branch
`[^"]*` is a forced maximal non-quote run which must be followed by
`">`; failing that, the second branch `[^"]*[^&]quot;[^"]*` is tried
with its `[^"]*` backtracking from greedy down. -/

def quotLit : List Char := ['q', 'u', 'o', 't', ';']

/-- Second alternation branch `[^"]*[^&]quot;[^"]*` followed by `">`,
tried at a fixed start position. -/
def metaBranch2 (rest : List Char) : Option (List Char) :=
  let maxA := (rest.takeWhile (fun c => c ≠ '"')).length
  (List.range (maxA + 1)).findSome? (fun k =>
    let a := maxA - k
    match rest.drop a with
    | c :: tail =>
      if c ≠ '&' ∧ quotLit.isPrefixOf tail then
        let tail2 := tail.drop 5
        let b := tail2.takeWhile (fun ch => ch ≠ '"')
        match tail2.drop b.length with
        | '"' :: '>' :: _ => some (rest.take a ++ c :: quotLit ++ b)
        | _ => none
      else none
    | [] => none)

/-- Both alternation branches at a fixed start position (first branch
preferred). -/
def metaBranch (rest : List Char) : Option (List Char) :=
  let r1 := rest.takeWhile (fun c => c ≠ '"')
  match rest.drop r1.length with
  | '"' :: '>' :: _ => some r1
  | _ => metaBranch2 rest

def metaScan (pat : List Char) : List Char → Option (List Char)
  | [] => none
  | c :: rest =>
    if pat.isPrefixOf (c :: rest) then
      match metaBranch ((c :: rest).drop pat.length) with
      | some r => some r
      | none => metaScan pat rest
    else metaScan pat rest

def metaPat (name : String) : List Char :=
  ("<meta name=\"" ++ name ++ "\" content=\"").toList

/-- Capture group 1 of the title/description meta-tag regex on the page
markup (`titleMatch && titleMatch[1]` resp. `descriptionMatch &&
descriptionMatch[1]` in the source). -/
def metaContent (name : String) (data : String) : Option String :=
  (metaScan (metaPat name) data.toList).map String.mk

/-! ## Caption-track JSON extraction

Model of `/"captionTracks":(\[.*?\])/.exec(data)`: leftmost occurrence
of the literal `"captionTracks":[`; the non-greedy `.*?` runs to the
*first* `]`, and `.` cannot cross a line terminator.  If no `]` is
reachable at an occurrence the engine moves on to later start
positions. -/

def ctPat : List Char := "\"captionTracks\":[".toList

def ctScan : List Char → Option (List Char)
  | [] => none
  | c :: rest =>
    if ctPat.isPrefixOf (c :: rest) then
      let after := (c :: rest).drop ctPat.length
      let run := after.takeWhile (fun ch => ch ≠ '\n' ∧ ch ≠ '\r')
      match run.findIdx? (fun ch => ch == ']') with
      | some j => some ('[' :: run.take j ++ [']'])
      | none => ctScan rest
    else ctScan rest

/-- Capture group 1 of the captionTracks regex on the page markup. -/
def extractCaptionTracksJson (data : String) : Option String :=
  (ctScan data.toList).map String.mk

/-! ## JSON parsing (model of `JSON.parse`)

`JSON.parse(captionTracksJson)` is the one host call in the pipeline
that can throw; it is modelled by a recursive-descent JSON parser
returning `Except`.  Values are kept structurally (numbers as their
source text, which the program never inspects). -/

inductive JVal where
  | jnull : JVal
  | jbool : Bool → JVal
  | jnum : String → JVal
  | jstr : String → JVal
  | jarr : List JVal → JVal
  | jobj : List (String × JVal) → JVal
deriving Repr

def escMap (c : Char) : Option Char :=
  if c = '"' then some '"'
  else if c = '\\' then some '\\'
  else if c = '/' then some '/'
  else if c = 'b' then some '\x08'
  else if c = 'f' then some '\x0c'
  else if c = 'n' then some '\n'
  else if c = 'r' then some '\r'
  else if c = 't' then some '\t'
  else none

/-- JSON string body parser (opening quote already consumed);
returns the decoded characters and the remainder after the closing
quote. -/
def parseJStrAux : List Char → Option (List Char × List Char)
  | [] => none
  | '"' :: rest => some ([], rest)
  | '\\' :: 'u' :: h1 :: h2 :: h3 :: h4 :: rest =>
    if isHexDigit h1 ∧ isHexDigit h2 ∧ isHexDigit h3 ∧ isHexDigit h4 then
      (parseJStrAux rest).map (fun p => (Char.ofNat (hexVal [h1, h2, h3, h4]) :: p.1, p.2))
    else none
  | '\\' :: e :: rest =>
    match escMap e with
    | some d => (parseJStrAux rest).map (fun p => (d :: p.1, p.2))
    | none => none
  | c :: rest =>
    if c.toNat < 32 then none
    else (parseJStrAux rest).map (fun p => (c :: p.1, p.2))

def fracPart : List Char → Option (List Char × List Char)
  | '.' :: r =>
    let ds := r.takeWhile Char.isDigit
    if ds = [] then none else some ('.' :: ds, r.drop ds.length)
  | l => some ([], l)

def expPart : List Char → Option (List Char × List Char)
  | [] => some ([], [])
  | c :: r =>
    if c = 'e' ∨ c = 'E' then
      let sr := match r with
        | '+' :: rr => (['+'], rr)
        | '-' :: rr => (['-'], rr)
        | _ => (([] : List Char), r)
      let ds := sr.2.takeWhile Char.isDigit
      if ds = [] then none else some (c :: sr.1 ++ ds, sr.2.drop ds.length)
    else some ([], c :: r)

/-- JSON number parser (leading-zero rule included). -/
def parseJNum (l : List Char) : Option (List Char × List Char) :=
  let sr := match l with
    | '-' :: r => ((['-'] : List Char), r)
    | _ => ([], l)
  let intPart := sr.2.takeWhile Char.isDigit
  if intPart = [] then none
  else if 1 < intPart.length ∧ intPart.head? = some '0' then none
  else
    match fracPart (sr.2.drop intPart.length) with
    | none => none
    | some (f, l2) =>
      match expPart l2 with
      | none => none
      | some (e, l3) => some (sr.1 ++ intPart ++ f ++ e, l3)

def skipWs (l : List Char) : List Char :=
  l.dropWhile (fun c => c == ' ' || c == '\t' || c == '\n' || c == '\r')

mutual

def parseJVal : Nat → List Char → Option (JVal × List Char)
  | 0, _ => none
  | Nat.succ fuel, l =>
    match skipWs l with
    | 'n' :: 'u' :: 'l' :: 'l' :: r => some (.jnull, r)
    | 't' :: 'r' :: 'u' :: 'e' :: r => some (.jbool true, r)
    | 'f' :: 'a' :: 'l' :: 's' :: 'e' :: r => some (.jbool false, r)
    | '"' :: r => (parseJStrAux r).map (fun p => (.jstr (String.mk p.1), p.2))
    | '[' :: r => parseJArr fuel r
    | '\x7b' :: r => parseJObj fuel r
    | c :: r =>
      if c = '-' ∨ c.isDigit then
        (parseJNum (c :: r)).map (fun p => (.jnum (String.mk p.1), p.2))
      else none
    | [] => none

def parseJArr : Nat → List Char → Option (JVal × List Char)
  | 0, _ => none
  | Nat.succ fuel, l =>
    match skipWs l with
    | ']' :: r => some (.jarr [], r)
    | _ =>
      match parseJVal fuel l with
      | none => none
      | some (v, rest) => parseJArrRest fuel [v] rest

def parseJArrRest : Nat → List JVal → List Char → Option (JVal × List Char)
  | 0, _, _ => none
  | Nat.succ fuel, acc, l =>
    match skipWs l with
    | ',' :: r =>
      match parseJVal fuel r with
      | none => none
      | some (v, rest) => parseJArrRest fuel (acc ++ [v]) rest
    | ']' :: r => some (.jarr acc, r)
    | _ => none

def parseJObj : Nat → List Char → Option (JVal × List Char)
  | 0, _ => none
  | Nat.succ fuel, l =>
    match skipWs l with
    | '\x7d' :: r => some (.jobj [], r)
    | _ =>
      match parseJMember fuel l with
      | none => none
      | some (k, v, rest) => parseJObjRest fuel [(k, v)] rest

def parseJObjRest : Nat → List (String × JVal) → List Char → Option (JVal × List Char)
  | 0, _, _ => none
  | Nat.succ fuel, acc, l =>
    match skipWs l with
    | ',' :: r =>
      match parseJMember fuel r with
      | none => none
      | some (k, v, rest) => parseJObjRest fuel (acc ++ [(k, v)]) rest
    | '\x7d' :: r => some (.jobj acc, r)
    | _ => none

def parseJMember : Nat → List Char → Option (String × JVal × List Char)
  | 0, _ => none
  | Nat.succ fuel, l =>
    match skipWs l with
    | '"' :: r =>
      match parseJStrAux r with
      | none => none
      | some (k, r2) =>
        match skipWs r2 with
        | ':' :: r3 => (parseJVal fuel r3).map (fun p => (String.mk k, p.1, p.2))
        | _ => none
    | _ => none

end

/-- Model of `JSON.parse`: a thrown `SyntaxError` becomes `.error`. -/
def jsonParse (s : String) : Except String JVal :=
  let l := s.toList
  match parseJVal (2 * l.length + 2) l with
  | none => .error ("SyntaxError: Unexpected token in JSON: " ++ s)
  | some (v, rest) =>
    if skipWs rest = [] then .ok v
    else .error ("SyntaxError: Unexpected non-whitespace character after JSON: " ++ s)

/-! ## Caption tracks and track selection -/

structure CaptionTrack where
  baseUrl : Option String
  vssId : Option String
deriving Repr, DecidableEq

/-! ## JavaScript evaluation of the `find` callbacks

The source calls `captionTracks.find(...)` directly on the value
returned by `JSON.parse`, so the callbacks see raw JSON values:

* a property read `track.vssId` throws a `TypeError` when the element
  is `null`, yields `undefined` (modelled `none`) on any other
  non-object, and looks the key up on an object (last duplicate wins);
* `track.vssId && track.vssId.match(...)` short-circuits on a falsy
  `vssId` and throws a `TypeError` when `vssId` is truthy but not a
  string (`.match` is not a function);
* JavaScript truthiness: `undefined`, `null`, `false`, `±0`, `""` are
  falsy, everything else (including `[]` and objects) truthy;
* the fetched URL is the `String(...)` coercion of the selected
  `baseUrl` value.

`TypeError` message texts are engine-specific; the model uses fixed
labels. -/

/-- Property read `v.name` (JSON values only, so the receiver is never
`undefined`): `null` throws, non-objects yield `undefined` (`none`),
objects look the key up with the last duplicate winning. -/
def jsGetField (v : JVal) (name : String) : Except String (Option JVal) :=
  match v with
  | .jnull => .error ("TypeError: Cannot read properties of null (reading " ++ name ++ ")")
  | .jobj fs => .ok ((fs.reverse.find? (fun f => f.1 == name)).map (fun f => f.2))
  | _ => .ok none

/-- Mantissa of a JSON number contains a nonzero digit: the parsed
number is nonzero, hence truthy (only `±0` is falsy; a JSON number is
zero iff no nonzero digit occurs before the exponent marker). -/
def jnumNonzero (s : String) : Bool :=
  (s.toList.takeWhile (fun c => c ≠ 'e' ∧ c ≠ 'E')).any (fun c => c.isDigit && c != '0')

/-- JavaScript truthiness of a parsed JSON value. -/
def jsTruthy : JVal → Bool
  | .jnull => false
  | .jbool b => b
  | .jnum s => jnumNonzero s
  | .jstr s => s != ""
  | .jarr _ => true
  | .jobj _ => true

/-- Truthiness with `none` standing for `undefined`. -/
def jsTruthyOpt : Option JVal → Bool
  | none => false
  | some v => jsTruthy v

/-- Model of JavaScript `v.match("." + lang)` viewed as a Boolean: the
string argument is compiled as a regex, in which `.` matches any
character except a line terminator, while the language codes in use
contain no regex metacharacters and thus match literally. -/
def dotLangAt (v lang : List Char) : Bool :=
  match v with
  | [] => false
  | c :: rest =>
    (decide (c ≠ '\n') && decide (c ≠ '\r') && lang.isPrefixOf rest) || dotLangAt rest lang

/-- First/second find callback `track.vssId === pat`: strict equality
against a string is true only for an equal string value. -/
def vssIdStrictEq (track : JVal) (pat : String) : Except String Bool :=
  match jsGetField track "vssId" with
  | .error e => .error e
  | .ok (some (.jstr s)) => .ok (s == pat)
  | .ok _ => .ok false

/-- Third find callback `track.vssId && track.vssId.match("." + lang)`:
falsy `vssId` short-circuits to a falsy result, a truthy string is
regex-tested, a truthy non-string throws. -/
def vssIdLooseMatch (track : JVal) (lang : String) : Except String Bool :=
  match jsGetField track "vssId" with
  | .error e => .error e
  | .ok v =>
    if jsTruthyOpt v = false then .ok false
    else
      match v with
      | some (.jstr s) => .ok (dotLangAt s.toList lang.toList)
      | _ => .error "TypeError: track.vssId.match is not a function"

/-- `Array.prototype.find` with a callback that may throw: elements are
visited in order, the first error or first satisfying element stops the
scan. -/
def findE (p : JVal → Except String Bool) : List JVal → Except String (Option JVal)
  | [] => .ok none
  | el :: rest =>
    match p el with
    | .error e => .error e
    | .ok true => .ok (some el)
    | .ok false => findE p rest

/-- The `subtitle` selection of the source: three
`captionTracks.find(...)` calls chained with `||`, evaluated over the
raw parsed JSON elements; any of the three scans can throw.  (A found
element is always a truthy object, so `||` is none-propagation.) -/
def findTrackE (captionTracks : List JVal) (lang : String) :
    Except String (Option JVal) :=
  match findE (fun track => vssIdStrictEq track ("." ++ lang)) captionTracks with
  | .error e => .error e
  | .ok (some t) => .ok (some t)
  | .ok none =>
    match findE (fun track => vssIdStrictEq track ("a." ++ lang)) captionTracks with
    | .error e => .error e
    | .ok (some t) => .ok (some t)
    | .ok none => findE (fun track => vssIdLooseMatch track lang) captionTracks

/-- Elements of the parsed caption-track array.  The captured text is
bracket-delimited, so a successful `JSON.parse` of it is always an
array; the catch-all is unreachable. -/
def tracksOf : JVal → List JVal
  | .jarr xs => xs
  | _ => []

mutual

/-- Model of JavaScript `String(v)` for parsed JSON values, used when a
truthy non-string `baseUrl` is passed to `fetch`: arrays join their
elements with commas (`null` joining as the empty string), objects
stringify to "[object Object]", and a number stringifies to its source
text (which coincides with JS for canonically written JSON numbers such
as `123`). -/
def jsToString : JVal → String
  | .jnull => "null"
  | .jbool b => if b then "true" else "false"
  | .jnum s => s
  | .jstr s => s
  | .jarr xs => jsJoinList xs
  | .jobj _ => "[object Object]"

/-- Model of `Array.prototype.join(",")` (see `jsToString`). -/
def jsJoinList : List JVal → String
  | [] => ""
  | x :: xs =>
    (match x with
      | .jnull => ""
      | v => jsToString v) ++ (if xs.isEmpty then "" else ",") ++ jsJoinList xs

end

/-- `String(...)` with `none` standing for `undefined` (unreachable
behind the truthiness guard). -/
def jsToStringOpt : Option JVal → String
  | none => "undefined"
  | some v => jsToString v

/-- The third `find` predicate: `track.vssId && track.vssId.match("." + lang)`. -/
def vssLoose (t : CaptionTrack) (lang : String) : Bool :=
  match t.vssId with
  | some v => (v != "") && dotLangAt v.toList lang.toList
  | none => false

/-- Typed view of the `subtitle` selection — the three
`captionTracks.find(...)` calls chained with `||` — over tracks whose
`vssId`/`baseUrl` fields are strings or absent (the shape the track
descriptors take in practice and the one the track-selection claims
speak about).  The pipeline itself evaluates the same chain over raw
JSON elements (`findTrackE` below), which can additionally throw on
`null` elements or truthy non-string `vssId` values. -/
def findTrack (captionTracks : List CaptionTrack) (lang : String) : Option CaptionTrack :=
  ((captionTracks.find? (fun track => track.vssId == some ("." ++ lang))).orElse (fun _ =>
    ((captionTracks.find? (fun track => track.vssId == some ("a." ++ lang))).orElse (fun _ =>
      captionTracks.find? (fun track => vssLoose track lang)))))

/-! ## The two exported operations

`page` is the body text of the fetched video page and `fetchUrl` maps
the selected track's `baseUrl` to the body text of the caption
document (the source awaits two `fetch` calls; transport failures are
outside the modelled pipeline). -/

structure VideoDetails where
  title : String
  description : String
  subtitles : List Subtitle
deriving Repr, DecidableEq

/-- Model of `data.includes("captionTracks")`. -/
def includesCaptionTracks (data : String) : Bool :=
  containsSub data.toList "captionTracks".toList

instance instDecEqExcept {ε α : Type} [DecidableEq ε] [DecidableEq α] :
    DecidableEq (Except ε α)
  | .error a, .error b =>
    if h : a = b then .isTrue (by rw [h]) else .isFalse (by intro hh; cases hh; exact h rfl)
  | .ok a, .ok b =>
    if h : a = b then .isTrue (by rw [h]) else .isFalse (by intro hh; cases hh; exact h rfl)
  | .error _, .ok _ => .isFalse (by intro hh; cases hh)
  | .ok _, .error _ => .isFalse (by intro hh; cases hh)

/-- The description defaulting `(descriptionMatch && descriptionMatch[1]) || "No description found"`. -/
def descriptionOf (page : String) : String :=
  match metaContent "description" page with
  | some d => if d = "" then "No description found" else d
  | none => "No description found"

/-- Model of the exported `getVideoDetails`. -/
def getVideoDetails (videoID : String) (lang : String) (page : String)
    (fetchUrl : String → String) : Except String VideoDetails :=
  match metaContent "title" page with
  | none => .error ("No video found for: " ++ videoID)
  | some title =>
    if title = "" then .error ("No video found for: " ++ videoID)
    else if includesCaptionTracks page = false then
      .ok ⟨title, descriptionOf page, []⟩
    else
      match extractCaptionTracksJson page with
      | none => .ok ⟨title, descriptionOf page, []⟩
      | some captionTracksJson =>
        match jsonParse captionTracksJson with
        | .error e => .error e
        | .ok jv =>
          match findTrackE (tracksOf jv) lang with
          | .error e => .error e
          | .ok none => .ok ⟨title, descriptionOf page, []⟩
          | .ok (some subtitle) =>
            match jsGetField subtitle "baseUrl" with
            | .error e => .error e
            | .ok burl =>
              if jsTruthyOpt burl = false then .ok ⟨title, descriptionOf page, []⟩
              else .ok ⟨title, descriptionOf page,
                parseTranscript (fetchUrl (jsToStringOpt burl))⟩

/-- Model of the exported `getSubtitles`. -/
def getSubtitles (videoID : String) (lang : String) (page : String)
    (fetchUrl : String → String) : Except String (List Subtitle) :=
  if includesCaptionTracks page = false then
    .ok []
  else
    match extractCaptionTracksJson page with
    | none => .ok []
    | some captionTracksJson =>
      match jsonParse captionTracksJson with
      | .error e => .error e
      | .ok jv =>
        match findTrackE (tracksOf jv) lang with
        | .error e => .error e
        | .ok none => .ok []
        | .ok (some subtitle) =>
          match jsGetField subtitle "baseUrl" with
          | .error e => .error e
          | .ok burl =>
            if jsTruthyOpt burl = false then .ok []
            else .ok (parseTranscript (fetchUrl (jsToStringOpt burl)))

/-! ## Helper lemmas -/

theorem all_takeWhile_holds (p : Char → Bool) :
    ∀ l : List Char, (l.takeWhile p).all p = true := by
  intro l
  induction l with
  | nil => rfl
  | cons c rest ih =>
    cases hc : p c with
    | true => simp [List.takeWhile, hc, ih]
    | false => simp [List.takeWhile, hc]

theorem captureAt_some {pat s r : List Char} (h : captureAt pat s = some r) :
    r ≠ [] ∧ r.all isDigitDot = true := by
  unfold captureAt at h
  split at h
  · rename_i hcond
    cases h
    exact ⟨hcond.1, all_takeWhile_holds _ _⟩
  · cases h

theorem findCapture_some {pat r : List Char} :
    ∀ {l : List Char}, findCapture pat l = some r → r ≠ [] ∧ r.all isDigitDot = true := by
  intro l
  induction l with
  | nil => intro h; simp [findCapture] at h
  | cons c rest ih =>
    intro h
    unfold findCapture at h
    split at h
    · split at h
      · rename_i hcap
        cases h
        exact captureAt_some hcap
      · exact ih h
    · exact ih h

theorem parseLine_some_start_dur {line : List Char} {s : Subtitle}
    (h : parseLine line = some s) :
    (s.start.toList ≠ [] ∧ s.start.toList.all isDigitDot = true) ∧
    (s.dur.toList ≠ [] ∧ s.dur.toList.all isDigitDot = true) := by
  unfold parseLine at h
  split at h
  · rename_i a b hsa hdb
    cases h
    exact ⟨findCapture_some hsa, findCapture_some hdb⟩
  · cases h

theorem foldl_push_filterMap (l : List (List Char)) :
    ∀ acc : List Subtitle,
      (l.foldl (fun acc line =>
        match parseLine line with
        | some s => acc ++ [s]
        | none => acc) acc) = acc ++ l.filterMap parseLine := by
  induction l with
  | nil => intro acc; simp
  | cons line rest ih =>
    intro acc
    cases hp : parseLine line with
    | none => simp [List.foldl, hp, ih]
    | some s => simp [List.foldl, hp, ih]

theorem parseTranscript_filterMap (t : String) :
    parseTranscript t = (transcriptFragments t).filterMap parseLine := by
  unfold parseTranscript
  simpa using foldl_push_filterMap (transcriptFragments t) []

theorem mem_parseTranscript_start_dur {t : String} {s : Subtitle}
    (h : s ∈ parseTranscript t) :
    (s.start.toList ≠ [] ∧ s.start.toList.all isDigitDot = true) ∧
    (s.dur.toList ≠ [] ∧ s.dur.toList.all isDigitDot = true) := by
  rw [parseTranscript_filterMap] at h
  obtain ⟨line, -, hline⟩ := List.mem_filterMap.mp h
  exact parseLine_some_start_dur hline

theorem descriptionOf_ne_empty (page : String) : descriptionOf page ≠ "" := by
  unfold descriptionOf
  split
  · split
    · simp
    · assumption
  · simp

theorem getVideoDetails_ok_shape {videoID lang page : String} {fetchUrl : String → String}
    {vd : VideoDetails} (h : getVideoDetails videoID lang page fetchUrl = .ok vd) :
    metaContent "title" page = some vd.title ∧ vd.title ≠ "" ∧
    vd.description = descriptionOf page ∧
    (vd.subtitles = [] ∨ ∃ u, vd.subtitles = parseTranscript (fetchUrl u)) := by
  unfold getVideoDetails at h
  split at h
  · cases h
  rename_i t hm
  split at h
  · cases h
  rename_i ht
  split at h
  · injection h with h2; subst h2
    exact ⟨hm, ht, rfl, Or.inl rfl⟩
  split at h
  · injection h with h2; subst h2
    exact ⟨hm, ht, rfl, Or.inl rfl⟩
  rename_i j he
  split at h
  · cases h
  rename_i v hj
  split at h
  · cases h
  · injection h with h2; subst h2
    exact ⟨hm, ht, rfl, Or.inl rfl⟩
  rename_i tk hf
  split at h
  · cases h
  rename_i burl hb
  split at h
  · injection h with h2; subst h2
    exact ⟨hm, ht, rfl, Or.inl rfl⟩
  · injection h with h2; subst h2
    exact ⟨hm, ht, rfl, Or.inr ⟨jsToStringOpt burl, rfl⟩⟩

theorem getSubtitles_ok_shape {videoID lang page : String} {fetchUrl : String → String}
    {l : List Subtitle} (h : getSubtitles videoID lang page fetchUrl = .ok l) :
    l = [] ∨ ∃ u, l = parseTranscript (fetchUrl u) := by
  unfold getSubtitles at h
  split at h
  · injection h with h2; subst h2; exact Or.inl rfl
  split at h
  · injection h with h2; subst h2; exact Or.inl rfl
  rename_i j he
  split at h
  · cases h
  rename_i v hj
  split at h
  · cases h
  · injection h with h2; subst h2; exact Or.inl rfl
  rename_i tk hf
  split at h
  · cases h
  rename_i burl hb
  split at h
  · injection h with h2; subst h2; exact Or.inl rfl
  · injection h with h2; subst h2; exact Or.inr ⟨jsToStringOpt burl, rfl⟩

theorem getVideoDetails_error_shape {videoID lang page : String} {fetchUrl : String → String}
    {e : String} (h : getVideoDetails videoID lang page fetchUrl = .error e) :
    e = "No video found for: " ++ videoID ∨
    (∃ j, extractCaptionTracksJson page = some j ∧ jsonParse j = .error e) ∨
    (∃ j v, extractCaptionTracksJson page = some j ∧ jsonParse j = .ok v ∧
      (findTrackE (tracksOf v) lang = .error e ∨
        ∃ tk, findTrackE (tracksOf v) lang = .ok (some tk) ∧
          jsGetField tk "baseUrl" = .error e)) := by
  unfold getVideoDetails at h
  split at h
  · injection h with h2; exact Or.inl h2.symm
  rename_i t hm
  split at h
  · injection h with h2; exact Or.inl h2.symm
  split at h
  · cases h
  split at h
  · cases h
  rename_i j he
  split at h
  · rename_i e2 hj
    injection h with h2; subst h2
    exact Or.inr (Or.inl ⟨j, he, hj⟩)
  rename_i v hj
  split at h
  · rename_i e2 hf
    injection h with h2; subst h2
    exact Or.inr (Or.inr ⟨j, v, he, hj, Or.inl hf⟩)
  · cases h
  rename_i tk hf
  split at h
  · rename_i e2 hb
    injection h with h2; subst h2
    exact Or.inr (Or.inr ⟨j, v, he, hj, Or.inr ⟨tk, hf, hb⟩⟩)
  rename_i burl hb
  split at h
  · cases h
  · cases h

theorem title_missing_error {videoID lang page : String} {fetchUrl : String → String}
    (h : metaContent "title" page = none ∨ metaContent "title" page = some "") :
    getVideoDetails videoID lang page fetchUrl = .error ("No video found for: " ++ videoID) := by
  cases h with
  | inl h => simp [getVideoDetails, h]
  | inr h => simp [getVideoDetails, h]

theorem noTracksOutcome {videoID lang page : String} {fetchUrl : String → String}
    (h : includesCaptionTracks page = false ∨
      extractCaptionTracksJson page = none ∨
      (∃ j v, extractCaptionTracksJson page = some j ∧ jsonParse j = .ok v ∧
        (findTrackE (tracksOf v) lang = .ok none ∨
          ∃ tk burl, findTrackE (tracksOf v) lang = .ok (some tk) ∧
            jsGetField tk "baseUrl" = .ok burl ∧ jsTruthyOpt burl = false))) :
    getSubtitles videoID lang page fetchUrl = .ok [] ∧
    (∀ t, metaContent "title" page = some t → t ≠ "" →
      getVideoDetails videoID lang page fetchUrl = .ok ⟨t, descriptionOf page, []⟩) := by
  by_cases hc : includesCaptionTracks page = false
  · constructor
    · simp [getSubtitles, hc]
    · intro t hm ht
      simp [getVideoDetails, hm, ht, hc]
  · have hrest : extractCaptionTracksJson page = none ∨
        (∃ j v, extractCaptionTracksJson page = some j ∧ jsonParse j = .ok v ∧
          (findTrackE (tracksOf v) lang = .ok none ∨
            ∃ tk burl, findTrackE (tracksOf v) lang = .ok (some tk) ∧
              jsGetField tk "baseUrl" = .ok burl ∧ jsTruthyOpt burl = false)) := by
      cases h with
      | inl h => exact absurd h hc
      | inr h => exact h
    cases hrest with
    | inl he =>
      constructor
      · simp [getSubtitles, hc, he]
      · intro t hm ht
        simp [getVideoDetails, hm, ht, hc, he]
    | inr hex =>
      obtain ⟨j, v, he, hj, hsel⟩ := hex
      cases hsel with
      | inl hf =>
        constructor
        · simp [getSubtitles, hc, he, hj, hf]
        · intro t hm ht
          simp [getVideoDetails, hm, ht, hc, he, hj, hf]
      | inr hsome =>
        obtain ⟨tk, burl, hf, hb, htr⟩ := hsome
        constructor
        · simp [getSubtitles, hc, he, hj, hf, hb, htr]
        · intro t hm ht
          simp [getVideoDetails, hm, ht, hc, he, hj, hf, hb, htr]

theorem dotLangAt_iff (v lang : List Char) :
    dotLangAt v lang = true ↔
      ∃ pre c suf, v = pre ++ c :: suf ∧ c ≠ '\n' ∧ c ≠ '\r' ∧
        lang.isPrefixOf suf = true := by
  induction v with
  | nil =>
    simp only [dotLangAt]
    constructor
    · intro h; cases h
    · rintro ⟨pre, c, suf, h, -⟩
      exact absurd h (by simp)
  | cons c0 rest ih =>
    simp only [dotLangAt, Bool.or_eq_true, Bool.and_eq_true, decide_eq_true_eq]
    constructor
    · rintro (⟨⟨h1, h2⟩, h3⟩ | hrec)
      · exact ⟨[], c0, rest, rfl, h1, h2, h3⟩
      · obtain ⟨pre, c, suf, heq, hc1, hc2, hp⟩ := ih.mp hrec
        exact ⟨c0 :: pre, c, suf, by rw [heq]; rfl, hc1, hc2, hp⟩
    · rintro ⟨pre, c, suf, heq, hc1, hc2, hp⟩
      cases pre with
      | nil =>
        simp only [List.nil_append] at heq
        injection heq with e1 e2
        subst e1; subst e2
        exact Or.inl ⟨⟨hc1, hc2⟩, hp⟩
      | cons p pre2 =>
        injection heq with e1 e2
        exact Or.inr (ih.mpr ⟨pre2, c, suf, e2, hc1, hc2, hp⟩)

/-! ## The claims -/

/-- C1: track selection is deterministic and tries three rules in
strict priority order, first match wins: a track whose variant id
exactly equals `.` + lang, else one exactly equal to `a.` + lang, else
the loose fallback; on the track list with variant ids
`a.en`, `en-US`, `.en` and language "en" the selected track is the one
with id `.en`. -/
theorem C1_track_selection_priority :
    findTrack [⟨some "u1", some "a.en"⟩, ⟨some "u2", some "en-US"⟩,
        ⟨some "u3", some ".en"⟩] "en" = some ⟨some "u3", some ".en"⟩ ∧
    (∀ (ts : List CaptionTrack) (lang : String) (t : CaptionTrack),
      ts.find? (fun track => track.vssId == some ("." ++ lang)) = some t →
      findTrack ts lang = some t) ∧
    (∀ (ts : List CaptionTrack) (lang : String) (t : CaptionTrack),
      ts.find? (fun track => track.vssId == some ("." ++ lang)) = none →
      ts.find? (fun track => track.vssId == some ("a." ++ lang)) = some t →
      findTrack ts lang = some t) ∧
    (∀ (ts : List CaptionTrack) (lang : String) (t : CaptionTrack),
      ts.find? (fun track => track.vssId == some ("." ++ lang)) = none →
      ts.find? (fun track => track.vssId == some ("a." ++ lang)) = none →
      ts.find? (fun track => vssLoose track lang) = some t →
      findTrack ts lang = some t) ∧
    (∀ (ts : List CaptionTrack) (lang : String),
      ts.find? (fun track => track.vssId == some ("." ++ lang)) = none →
      ts.find? (fun track => track.vssId == some ("a." ++ lang)) = none →
      ts.find? (fun track => vssLoose track lang) = none →
      findTrack ts lang = none) := by
  refine ⟨by decide, ?_, ?_, ?_, ?_⟩
  · intro ts lang t h1
    unfold findTrack
    rw [h1]; rfl
  · intro ts lang t h1 h2
    unfold findTrack
    rw [h1, h2]; rfl
  · intro ts lang t h1 h2 h3
    unfold findTrack
    rw [h1, h2, h3]; rfl
  · intro ts lang h1 h2 h3
    unfold findTrack
    rw [h1, h2, h3]; rfl

/-- Witness for C1: the first rule selects an exactly-matching track. -/
theorem C1_track_selection_priority_witness :
    findTrack [⟨some "b", some ".fr"⟩] "fr" = some ⟨some "b", some ".fr"⟩ :=
  C1_track_selection_priority.2.1 _ "fr" _ (by decide)

/-- C2 counterexample: a page whose title meta tag matches with a
non-empty title but whose extracted caption-track JSON is malformed
makes `getVideoDetails` fail with a JSON syntax error, so the
missing-title condition is not the sole hard-failure condition after a
successful page fetch. -/
theorem C2_counterexample :
    metaContent "title" "<meta name=\"title\" content=\"T\">\"captionTracks\":[\x7d]" =
      some "T" ∧
    getVideoDetails "vid01" "en"
        "<meta name=\"title\" content=\"T\">\"captionTracks\":[\x7d]" (fun _ => "") =
      .error ("SyntaxError: Unexpected token in JSON: [\x7d]") := by
  constructor
  · decide
  · decide

/-- C2 (amended): a missing or empty title makes `getVideoDetails` fail
with a target-not-found error naming the supplied identifier, but it is
not the sole hard-failure condition after a successful page fetch:
every error is either that error, a JSON syntax error from malformed
extracted caption-track JSON, or a TypeError raised while evaluating
the track-selection callbacks or the baseUrl access over the parsed
elements (a `null` element, or a truthy non-string `vssId`); all other
missing-data conditions yield empty results.  The final conjunct
exhibits the TypeError path at a concrete page whose caption-track
array is `[null]`. -/
theorem C2_title_error_classification :
    (∀ (videoID lang page : String) (fetchUrl : String → String),
      ((metaContent "title" page = none ∨ metaContent "title" page = some "") →
        getVideoDetails videoID lang page fetchUrl =
          .error ("No video found for: " ++ videoID)) ∧
      (∀ e, getVideoDetails videoID lang page fetchUrl = .error e →
        e = "No video found for: " ++ videoID ∨
        (∃ j, extractCaptionTracksJson page = some j ∧ jsonParse j = .error e) ∨
        (∃ j v, extractCaptionTracksJson page = some j ∧ jsonParse j = .ok v ∧
          (findTrackE (tracksOf v) lang = .error e ∨
            ∃ tk, findTrackE (tracksOf v) lang = .ok (some tk) ∧
              jsGetField tk "baseUrl" = .error e)))) ∧
    getVideoDetails "vidT2" "en"
        "<meta name=\"title\" content=\"T\">\"captionTracks\":[null]" (fun _ => "") =
      .error "TypeError: Cannot read properties of null (reading vssId)" := by
  refine ⟨fun _ _ _ _ =>
    ⟨fun h => title_missing_error h, fun _ h => getVideoDetails_error_shape h⟩, ?_⟩
  decide

/-- Witness for C2 at a concrete page with no title meta tag. -/
theorem C2_title_error_classification_witness :
    getVideoDetails "vid02" "en" "no title here" (fun _ => "") =
      .error ("No video found for: " ++ "vid02") :=
  (C2_title_error_classification.1 "vid02" "en" "no title here" (fun _ => "")).1
    (Or.inl (by decide))

/-- C3 counterexample: a page whose extracted caption-track JSON is
malformed makes `getSubtitles` raise an error rather than degrade to an
empty sequence. -/
theorem C3_counterexample :
    getSubtitles "vid03" "en" "\"captionTracks\":[,]" (fun _ => "") =
      .error ("SyntaxError: Unexpected token in JSON: [,]") := by decide

/-- C3 (amended): the no-captions, failed-extraction,
scan-completed-without-match and falsy-baseUrl conditions are
non-fatal: both operations return an empty subtitle sequence (and
`getVideoDetails`, given a valid title, still returns title and
description).  Excluded from the original claim: caption-track JSON
that the extraction regex captures but that fails to parse raises a
SyntaxError (see the counterexample); a `null` track element or a
truthy non-string `vssId` raises a TypeError during selection (second
conjunct); and a truthy non-string `baseUrl` is not treated as missing
— it is coerced to a string and fetched, so subtitles can be non-empty
(third conjunct). -/
theorem C3_nonfatal_degradation :
    (∀ (videoID lang page : String) (fetchUrl : String → String),
      (includesCaptionTracks page = false ∨
        extractCaptionTracksJson page = none ∨
        (∃ j v, extractCaptionTracksJson page = some j ∧ jsonParse j = .ok v ∧
          (findTrackE (tracksOf v) lang = .ok none ∨
            ∃ tk burl, findTrackE (tracksOf v) lang = .ok (some tk) ∧
              jsGetField tk "baseUrl" = .ok burl ∧ jsTruthyOpt burl = false))) →
      getSubtitles videoID lang page fetchUrl = .ok [] ∧
      (∀ t, metaContent "title" page = some t → t ≠ "" →
        getVideoDetails videoID lang page fetchUrl = .ok ⟨t, descriptionOf page, []⟩)) ∧
    getSubtitles "vidT3a" "en" "\"captionTracks\":[\x7b\"vssId\":1\x7d]" (fun _ => "") =
      .error "TypeError: track.vssId.match is not a function" ∧
    getSubtitles "vidT3b" "en"
        "\"captionTracks\":[\x7b\"baseUrl\":123,\"vssId\":\".en\"\x7d]"
        (fun _ => "<text start=\"1\" dur=\"2\">x</text>") =
      .ok [⟨"1", "2", "x"⟩] := by
  refine ⟨fun _ _ _ _ h => noTracksOutcome h, ?_, ?_⟩
  · decide
  · decide

/-- Witness for C3 at a concrete page with no captionTracks marker. -/
theorem C3_nonfatal_degradation_witness :
    getSubtitles "vid04" "en" "<meta name=\"title\" content=\"T3\">" (fun _ => "") =
      .ok [] ∧
    getVideoDetails "vid04" "en" "<meta name=\"title\" content=\"T3\">" (fun _ => "") =
      .ok ⟨"T3", descriptionOf "<meta name=\"title\" content=\"T3\">", []⟩ :=
  ⟨(C3_nonfatal_degradation.1 "vid04" "en" _ (fun _ => "") (Or.inl (by decide))).1,
    (C3_nonfatal_degradation.1 "vid04" "en" _ (fun _ => "")
      (Or.inl (by decide))).2 "T3" (by decide) (by decide)⟩

/-- C4: the caption-document parser on the concrete document yields
exactly one line with start "0.5", dur "2.3" and text "Hello & world"
(the double-escaped ampersand resolves to a single literal
ampersand). -/
theorem C4_caption_roundtrip :
    parseTranscript "<?xml version=\"1.0\" encoding=\"utf-8\" ?><transcript><text start=\"0.5\" dur=\"2.3\">Hello &amp;amp; world</text></transcript>" =
      [⟨"0.5", "2.3", "Hello & world"⟩] := by decide

/-- C5: given identical inputs and identical upstream documents, the
sequence returned by `getSubtitles` equals the `subtitles` field of the
`VideoDetails` returned by `getVideoDetails`. -/
theorem C5_entry_points_agree :
    ∀ (videoID lang page : String) (fetchUrl : String → String) (vd : VideoDetails),
      getVideoDetails videoID lang page fetchUrl = .ok vd →
      getSubtitles videoID lang page fetchUrl = .ok vd.subtitles := by
  intro videoID lang page fetchUrl vd h
  unfold getVideoDetails at h
  split at h
  · cases h
  rename_i t hm
  split at h
  · cases h
  rename_i ht
  split at h
  case isTrue hc =>
    injection h with h2; subst h2
    simp [getSubtitles, hc]
  case isFalse hc =>
    split at h
    · rename_i he
      injection h with h2; subst h2
      simp [getSubtitles, hc, he]
    rename_i j he
    split at h
    · simp at h
    rename_i v hj
    split at h
    · simp at h
    · rename_i hf
      injection h with h2; subst h2
      simp [getSubtitles, hc, he, hj, hf]
    rename_i tk hf
    split at h
    · simp at h
    rename_i burl hb
    split at h
    · rename_i htr
      injection h with h2; subst h2
      simp [getSubtitles, hc, he, hj, hf, hb, htr]
    · rename_i htr
      injection h with h2; subst h2
      simp [getSubtitles, hc, he, hj, hf, hb, htr]

/-- Witness for C5 at a concrete full success run. -/
theorem C5_entry_points_agree_witness :
    getSubtitles "vid05" "en"
        "<meta name=\"title\" content=\"T5\">\"captionTracks\":[\x7b\"baseUrl\":\"u\",\"vssId\":\".en\"\x7d]"
        (fun _ => "<?xml version=\"1.0\" encoding=\"utf-8\" ?><transcript><text start=\"1\" dur=\"2\">hi</text></transcript>") =
      .ok [⟨"1", "2", "hi"⟩] :=
  C5_entry_points_agree "vid05" "en" _ _
    ⟨"T5", "No description found", [⟨"1", "2", "hi"⟩]⟩ (by decide)

/-- C6 counterexample: for language "en" the variant id "xen" does not
contain the substring ".en", yet the loose fallback selects it (the
dot in `vssId.match("." + lang)` is a regex wildcard, not a literal
dot). -/
theorem C6_counterexample :
    containsSub "xen".toList ".en".toList = false ∧
    findTrack [⟨some "url", some "xen"⟩] "en" = some ⟨some "url", some "xen"⟩ := by
  constructor
  · decide
  · decide

/-- C6 (amended): the loose-fallback rule selects a track iff its
variant id is non-empty and contains *any* character other than a line
terminator immediately followed by the language code (the `.` of the
pattern is a regex wildcard); when the first two rules fail, the
selection is exactly the first track satisfying this predicate. -/
theorem C6_loose_rule_wildcard :
    (∀ v lang : List Char,
      dotLangAt v lang = true ↔
        ∃ pre c suf, v = pre ++ c :: suf ∧ c ≠ '\n' ∧ c ≠ '\r' ∧
          lang.isPrefixOf suf = true) ∧
    (∀ (ts : List CaptionTrack) (lang : String),
      ts.find? (fun track => track.vssId == some ("." ++ lang)) = none →
      ts.find? (fun track => track.vssId == some ("a." ++ lang)) = none →
      findTrack ts lang = ts.find? (fun track => vssLoose track lang)) ∧
    vssLoose ⟨some "url", some "xen"⟩ "en" = true := by
  refine ⟨dotLangAt_iff, ?_, by decide⟩
  intro ts lang h1 h2
  unfold findTrack
  rw [h1, h2]; rfl

/-- Witness for C6: with the exact rules failing, selection reduces to
the loose-fallback scan. -/
theorem C6_loose_rule_wildcard_witness :
    findTrack [⟨some "url2", some "pten"⟩] "en" =
      [(⟨some "url2", some "pten"⟩ : CaptionTrack)].find?
        (fun track => vssLoose track "en") :=
  C6_loose_rule_wildcard.2.1 _ "en" (by decide) (by decide)

/-- C7: for any page without the "captionTracks" marker (and a matching
non-empty title), both operations return an empty subtitle sequence
without error, and `getVideoDetails` additionally returns that title
and a non-empty description. -/
theorem C7_no_marker_all_empty :
    ∀ (videoID lang page : String) (fetchUrl : String → String) (t : String),
      includesCaptionTracks page = false →
      metaContent "title" page = some t → t ≠ "" →
      getVideoDetails videoID lang page fetchUrl = .ok ⟨t, descriptionOf page, []⟩ ∧
      descriptionOf page ≠ "" ∧
      getSubtitles videoID lang page fetchUrl = .ok [] := by
  intro videoID lang page fetchUrl t hc hm ht
  have h := @noTracksOutcome videoID lang page fetchUrl (Or.inl hc)
  exact ⟨h.2 t hm ht, descriptionOf_ne_empty page, h.1⟩

/-- Witness for C7 at a concrete page. -/
theorem C7_no_marker_all_empty_witness :
    getVideoDetails "vid07" "en" "<meta name=\"title\" content=\"T7\">" (fun _ => "") =
      .ok ⟨"T7", descriptionOf "<meta name=\"title\" content=\"T7\">", []⟩ ∧
    descriptionOf "<meta name=\"title\" content=\"T7\">" ≠ "" ∧
    getSubtitles "vid07" "en" "<meta name=\"title\" content=\"T7\">" (fun _ => "") =
      .ok [] :=
  C7_no_marker_all_empty "vid07" "en" _ (fun _ => "") "T7"
    (by decide) (by decide) (by decide)

/-- C8: a fragment from which a start or dur attribute cannot be
extracted is discarded and parsing continues: the parse equals the
filterMap of the per-fragment parser over the fragments in document
order (hence it never fails and surviving lines keep their order), and
the concrete document with one valid and one invalid fragment yields
exactly its one valid line. -/
theorem C8_skip_and_continue :
    (∀ t : String, parseTranscript t = (transcriptFragments t).filterMap parseLine) ∧
    (∀ line : List Char,
      findCapture startPat line = none ∨ findCapture durPat line = none →
      parseLine line = none) ∧
    parseTranscript "<?xml version=\"1.0\" encoding=\"utf-8\" ?><transcript><text start=\"0.5\" dur=\"2.3\">one</text><text start=\"3\">bad</text></transcript>" =
      [⟨"0.5", "2.3", "one"⟩] := by
  refine ⟨parseTranscript_filterMap, ?_, by decide⟩
  intro line h
  unfold parseLine
  cases h with
  | inl h => rw [h]
  | inr h =>
    rw [h]
    cases hs : findCapture startPat line <;> rfl

/-- Witness for C8: the filterMap characterization at a concrete
document. -/
theorem C8_skip_and_continue_witness :
    parseTranscript "ab" = (transcriptFragments "ab").filterMap parseLine :=
  C8_skip_and_continue.1 "ab"

/-- C9: whenever the description meta-tag pattern does not match and
`getVideoDetails` returns a result, its description is exactly
"No description found" (not empty, not absent). -/
theorem C9_missing_description_placeholder :
    ∀ (videoID lang page : String) (fetchUrl : String → String) (vd : VideoDetails),
      metaContent "description" page = none →
      getVideoDetails videoID lang page fetchUrl = .ok vd →
      vd.description = "No description found" := by
  intro videoID lang page fetchUrl vd hd h
  rw [(getVideoDetails_ok_shape h).2.2.1]
  unfold descriptionOf
  rw [hd]

/-- Witness for C9 at a concrete page with a title but no description
meta tag. -/
theorem C9_missing_description_placeholder_witness :
    (VideoDetails.mk "T9" "No description found" []).description =
      "No description found" :=
  C9_missing_description_placeholder "vid09" "en"
    "<meta name=\"title\" content=\"T9\">" (fun _ => "")
    ⟨"T9", "No description found", []⟩ (by decide) (by decide)

/-- C10: every subtitle line returned by either operation has start and
dur fields that are non-empty and consist only of decimal digits and
dots. -/
theorem C10_start_dur_digits :
    ∀ (videoID lang page : String) (fetchUrl : String → String),
      (∀ l, getSubtitles videoID lang page fetchUrl = .ok l →
        ∀ s ∈ l,
          (s.start.toList ≠ [] ∧ s.start.toList.all isDigitDot = true) ∧
          (s.dur.toList ≠ [] ∧ s.dur.toList.all isDigitDot = true)) ∧
      (∀ vd, getVideoDetails videoID lang page fetchUrl = .ok vd →
        ∀ s ∈ vd.subtitles,
          (s.start.toList ≠ [] ∧ s.start.toList.all isDigitDot = true) ∧
          (s.dur.toList ≠ [] ∧ s.dur.toList.all isDigitDot = true)) := by
  intro videoID lang page fetchUrl
  constructor
  · intro l h s hs
    rcases getSubtitles_ok_shape h with rfl | ⟨u, rfl⟩
    · cases hs
    · exact mem_parseTranscript_start_dur hs
  · intro vd h s hs
    rcases (getVideoDetails_ok_shape h).2.2.2 with he | ⟨u, he⟩
    · rw [he] at hs; cases hs
    · rw [he] at hs; exact mem_parseTranscript_start_dur hs

/-- Witness for C10 at a concrete run returning one line. -/
theorem C10_start_dur_digits_witness :
    (("1" : String).toList ≠ [] ∧ ("1" : String).toList.all isDigitDot = true) ∧
    (("2" : String).toList ≠ [] ∧ ("2" : String).toList.all isDigitDot = true) :=
  (C10_start_dur_digits "vid10" "en"
      "\"captionTracks\":[\x7b\"baseUrl\":\"u\",\"vssId\":\".en\"\x7d]"
      (fun _ => "<?xml version=\"1.0\" encoding=\"utf-8\" ?><transcript><text start=\"1\" dur=\"2\">hi</text></transcript>")).1
    [⟨"1", "2", "hi"⟩] (by decide) ⟨"1", "2", "hi"⟩ (by simp)

end YCE
